import Mathlib

/-!
Verification of the codex-voice overlay coordinator (`src/bin/codex_overlay.rs`).

Shallow embedding conventions:
* `Instant` is modelled as `Nat` (milliseconds on an arbitrary clock);
  `Duration` is `Nat` milliseconds.  `Instant::duration_since` saturates at
  zero, matching `Nat` subtraction.
* Bytes are `Nat` (values < 256 in practice); byte buffers are `List Nat`.
* The PTY session is modelled as the list of bytes the child has received.
* Channel sends to the writer thread are modelled as the list of status
  texts sent so far.
-/

namespace CodexOverlay

/-- `VoiceSendMode` from the overlay binary. -/
inductive VoiceSendMode where
  | auto
  | insert
deriving DecidableEq, Repr

/-- `VoiceCaptureSource` (library crate). Two pipelines: native Rust or Python fallback. -/
inductive VoiceCaptureSource where
  | native
  | python
deriving DecidableEq, Repr

/-- Modelled from the spec: `VoiceCaptureSource::label` lives in the `rust_tui`
library crate, which is not under `src/`; the spec (§3) only calls the result
"that source's human label".  We model it as an injective assignment of a
human-readable label per source. -/
def VoiceCaptureSource.label : VoiceCaptureSource → String
  | .native => "Native"
  | .python => "Python"

/-- Rust `str::trim`: drop leading and trailing whitespace characters. -/
def rustTrim (s : String) : String :=
  String.mk (((s.data.dropWhile Char.isWhitespace).reverse.dropWhile Char.isWhitespace).reverse)

/-- The bytes a `&str` contributes to the PTY stream (ASCII payloads in all claims). -/
def strBytes (s : String) : List Nat :=
  s.data.map Char.toNat

/-- The fields of `PromptTracker` that the readiness / auto-trigger queries read.
(`regex`, `learned_prompt`, `current_line`, `last_line` and the logger only feed
these fields and are not needed by the claims below.) -/
structure PromptTracker where
  last_prompt_seen_at : Option Nat
  last_output_at : Nat
  has_seen_output : Bool
deriving DecidableEq, Repr

/-- `PromptTracker::idle_ready`: `now.duration_since(last_output_at) >= idle_timeout`. -/
def PromptTracker.idle_ready (tr : PromptTracker) (now idle_timeout : Nat) : Bool :=
  decide (idle_timeout ≤ now - tr.last_output_at)

/-- `PromptTracker::note_activity`. -/
def PromptTracker.note_activity (tr : PromptTracker) (now : Nat) : PromptTracker :=
  { tr with last_output_at := now, has_seen_output := true }

/-- `prompt_ready` (codex_overlay.rs:1256-1262). -/
def prompt_ready (tr : PromptTracker) (last_enter_at : Option Nat) : Bool :=
  match tr.last_prompt_seen_at, last_enter_at with
  | some prompt_at, some enter_at => decide (enter_at < prompt_at)
  | some _, none => true
  | _, _ => false

/-- `transcript_ready` (codex_overlay.rs:1264-1277). -/
def transcript_ready (tr : PromptTracker) (last_enter_at : Option Nat)
    (now transcript_idle_timeout : Nat) : Bool :=
  if prompt_ready tr last_enter_at then
    true
  else if tr.last_prompt_seen_at.isNone then
    tr.idle_ready now transcript_idle_timeout
  else
    false

/-- `should_auto_trigger` (codex_overlay.rs:1279-1299). -/
def should_auto_trigger (tr : PromptTracker) (now idle_timeout : Nat)
    (last_trigger_at : Option Nat) : Bool :=
  if !tr.has_seen_output then
    last_trigger_at.isNone && tr.idle_ready now idle_timeout
  else
    let prompt_fire :=
      match tr.last_prompt_seen_at with
      | some prompt_at =>
        match last_trigger_at with
        | none => true
        | some last => decide (last < prompt_at)
      | none => false
    if prompt_fire then
      true
    else if tr.idle_ready now idle_timeout &&
        (match last_trigger_at with
         | none => true
         | some last => decide (last < tr.last_output_at)) then
      true
    else
      false

/-- C1: `prompt_ready(last_enter_at)` holds exactly when `last_prompt_seen_at` is set and
greater than `last_enter_at`, or a prompt has been seen and no Enter was ever sent; and
`transcript_ready` holds exactly when `prompt_ready` holds, or no prompt has ever been
seen and `now - last_output_at ≥ transcript_idle_timeout`. -/
theorem c1_readiness (tr : PromptTracker) (last_enter_at : Option Nat)
    (now transcript_idle_timeout : Nat) :
    (prompt_ready tr last_enter_at = true ↔
      ((∃ p e, tr.last_prompt_seen_at = some p ∧ last_enter_at = some e ∧ e < p) ∨
        (tr.last_prompt_seen_at ≠ none ∧ last_enter_at = none))) ∧
    (transcript_ready tr last_enter_at now transcript_idle_timeout = true ↔
      (prompt_ready tr last_enter_at = true ∨
        (tr.last_prompt_seen_at = none ∧
          transcript_idle_timeout ≤ now - tr.last_output_at))) := by
  constructor
  · unfold prompt_ready
    rcases hp : tr.last_prompt_seen_at with _ | p <;>
      rcases he : last_enter_at with _ | e <;> simp [hp, he]
  · unfold transcript_ready PromptTracker.idle_ready
    rcases hp : tr.last_prompt_seen_at with _ | p <;> simp [prompt_ready, hp]

/-- `PendingTranscript` (codex_overlay.rs:1310-1314). -/
structure PendingTranscript where
  text : String
  source : VoiceCaptureSource
  mode : VoiceSendMode
deriving DecidableEq, Repr

/-- `PendingBatch` (codex_overlay.rs:1316-1320). -/
structure PendingBatch where
  text : String
  label : String
  mode : VoiceSendMode
deriving DecidableEq, Repr

/-- `MAX_PENDING_TRANSCRIPTS` (codex_overlay.rs:23). -/
def MAX_PENDING_TRANSCRIPTS : Nat := 5

/-- `push_pending_transcript` (codex_overlay.rs:574-586): the `VecDeque` is the list with
its front at the head; on overflow `pop_front` then `push_back`. -/
def push_pending_transcript (pending : List PendingTranscript)
    (transcript : PendingTranscript) : List PendingTranscript × Bool :=
  if MAX_PENDING_TRANSCRIPTS ≤ pending.length then
    (pending.tail ++ [transcript], true)
  else
    (pending ++ [transcript], false)

/-- The `while let` loop of `merge_pending_transcripts`: pop contiguous front entries
whose mode equals `mode`, collecting `(trimmed text, source)` for those whose trimmed
text is non-empty. -/
def mergeLoop (mode : VoiceSendMode) :
    List PendingTranscript → List (String × VoiceCaptureSource) × List PendingTranscript
  | [] => ([], [])
  | e :: rest =>
    if e.mode = mode then
      let trimmed := rustTrim e.text
      let r := mergeLoop mode rest
      if trimmed.isEmpty then r else ((trimmed, e.source) :: r.1, r.2)
    else
      ([], e :: rest)

/-- `merge_pending_transcripts` (codex_overlay.rs:612-642).  Returns the optional batch
together with the remaining queue (the Rust function mutates the `VecDeque` in place). -/
def merge_pending_transcripts (pending : List PendingTranscript) :
    Option PendingBatch × List PendingTranscript :=
  match pending with
  | [] => (none, [])
  | first :: _ =>
    match mergeLoop first.mode pending with
    | ([], rest) => (none, rest)
    | ((t0, s0) :: more, rest) =>
      let parts := t0 :: more.map Prod.fst
      let sources := s0 :: more.map Prod.snd
      let label := if sources.all (fun s => s == s0) then s0.label else "Mixed pipelines"
      (some ⟨String.intercalate " " parts, label, first.mode⟩, rest)

lemma mergeLoop_eq (mode : VoiceSendMode) (q : List PendingTranscript) :
    mergeLoop mode q =
      ((q.takeWhile (fun e => e.mode == mode)).filterMap
        (fun e =>
          if (rustTrim e.text).isEmpty then none else some (rustTrim e.text, e.source)),
       q.dropWhile (fun e => e.mode == mode)) := by
  induction q with
  | nil => simp [mergeLoop]
  | cons e rest ih =>
    by_cases hm : e.mode = mode
    · by_cases ht : (rustTrim e.text).isEmpty <;>
        simp [mergeLoop, hm, ht, List.takeWhile_cons, List.dropWhile_cons, ih]
    · simp [mergeLoop, hm, List.takeWhile_cons, List.dropWhile_cons]

lemma push_length_le (q : List PendingTranscript) (t : PendingTranscript)
    (hq : q.length ≤ MAX_PENDING_TRANSCRIPTS) :
    (push_pending_transcript q t).1.length ≤ MAX_PENDING_TRANSCRIPTS := by
  unfold push_pending_transcript
  simp only [MAX_PENDING_TRANSCRIPTS] at *
  split
  · rcases q with _ | ⟨a, q⟩ <;> simp_all
  · simp_all
    omega

lemma push_fold_length_le (ops : List PendingTranscript) :
    ∀ q : List PendingTranscript, q.length ≤ MAX_PENDING_TRANSCRIPTS →
      (ops.foldl (fun q t => (push_pending_transcript q t).1) q).length ≤
        MAX_PENDING_TRANSCRIPTS := by
  induction ops with
  | nil => intro q hq; simpa using hq
  | cons t rest ih =>
    intro q hq
    simp only [List.foldl_cons]
    exact ih _ (push_length_le q t hq)

lemma merge_cons_eq (first : PendingTranscript) (rest : List PendingTranscript) :
    merge_pending_transcripts (first :: rest) =
      (match (List.takeWhile (fun e => e.mode == first.mode) (first :: rest)).filterMap
          (fun e =>
            if (rustTrim e.text).isEmpty then none
            else some (rustTrim e.text, e.source)) with
        | [] => none
        | (t0, s0) :: more =>
          some
            { text := String.intercalate " " (t0 :: more.map Prod.fst),
              label :=
                if (s0 :: more.map Prod.snd).all (fun s => s == s0) then s0.label
                else "Mixed pipelines",
              mode := first.mode },
       List.dropWhile (fun e => e.mode == first.mode) (first :: rest)) := by
  simp only [merge_pending_transcripts]
  rw [mergeLoop_eq]
  rcases h : (List.takeWhile (fun e => e.mode == first.mode) (first :: rest)).filterMap
      (fun e =>
        if (rustTrim e.text).isEmpty then none
        else some (rustTrim e.text, e.source)) with _ | ⟨⟨t0, s0⟩, more⟩ <;>
    simp only [h]

/-- C4 counterexample: the queue holding the single whitespace-only entry `" "` is
non-empty, yet `merge_pending_transcripts` returns no batch (it returns `none` and
empties the queue). -/
theorem c4_counterexample :
    merge_pending_transcripts [⟨" ", .native, .auto⟩] = (none, []) ∧
    ([(⟨" ", .native, .auto⟩ : PendingTranscript)] ≠ []) := by
  constructor
  · decide
  · decide

/-- C4 amended: for every non-empty pending queue, `merge_pending_transcripts` consumes
exactly the contiguous front entries whose mode equals the front entry's mode (entries
of a different mode remain in the queue in order); whitespace-only entries among them
are skipped; when at least one contributing entry remains, the batch joins the trimmed
texts with single spaces, its mode equals the mode of every consumed entry, and its
label is the single source's human label when all contributing sources agree, else
"Mixed pipelines"; when every front-run entry is whitespace-only, no batch is
returned. -/
theorem c4_merge_amended (q : List PendingTranscript) (first : PendingTranscript)
    (rest : List PendingTranscript) (hq : q = first :: rest) :
    (merge_pending_transcripts q).2 = q.dropWhile (fun e => e.mode == first.mode) ∧
    (∀ e ∈ q.takeWhile (fun e => e.mode == first.mode), e.mode = first.mode) ∧
    ((q.takeWhile (fun e => e.mode == first.mode)).filterMap
        (fun e =>
          if (rustTrim e.text).isEmpty then none else some (rustTrim e.text, e.source)) =
        [] →
      (merge_pending_transcripts q).1 = none) ∧
    (∀ p ps,
      (q.takeWhile (fun e => e.mode == first.mode)).filterMap
          (fun e =>
            if (rustTrim e.text).isEmpty then none
            else some (rustTrim e.text, e.source)) =
        p :: ps →
      (merge_pending_transcripts q).1 =
        some
          { text := String.intercalate " " (p.1 :: ps.map Prod.fst),
            label :=
              if (p.2 :: ps.map Prod.snd).all (fun s => s == p.2) then p.2.label
              else "Mixed pipelines",
            mode := first.mode }) := by
  subst hq
  refine ⟨?_, ?_, ?_, ?_⟩
  · rw [merge_cons_eq]
  · intro e he
    simpa using List.mem_takeWhile_imp he
  · intro hps
    rw [merge_cons_eq]
    simp only [hps]
  · intro p ps hps
    rw [merge_cons_eq]
    rcases p with ⟨t0, s0⟩
    simp only [hps]

/-- C5: starting from the empty queue, any sequence of `push_pending_transcript`
operations keeps at most 5 entries; a push onto a full queue removes exactly the oldest
entry, appends the new one at the back (preserving the order of the rest) and reports a
drop, while a push onto a non-full queue appends and drops nothing. -/
theorem c5_queue_bound :
    (∀ ops : List PendingTranscript,
      (ops.foldl (fun q t => (push_pending_transcript q t).1) []).length ≤
        MAX_PENDING_TRANSCRIPTS) ∧
    (∀ (q : List PendingTranscript) (t : PendingTranscript),
      q.length = MAX_PENDING_TRANSCRIPTS →
      push_pending_transcript q t = (q.tail ++ [t], true)) ∧
    (∀ (q : List PendingTranscript) (t : PendingTranscript),
      q.length < MAX_PENDING_TRANSCRIPTS →
      push_pending_transcript q t = (q ++ [t], false)) := by
  refine ⟨fun ops => push_fold_length_le ops [] (by simp), ?_, ?_⟩
  · intro q t hq
    simp [push_pending_transcript, hq]
  · intro q t hq
    simp [push_pending_transcript, Nat.not_le.mpr hq]

/-- Witness for C5: a push onto a concrete full queue drops the oldest entry; a push
onto a concrete one-element queue appends without dropping. -/
theorem c5_queue_bound_witness :
    push_pending_transcript
        [⟨"a", .native, .auto⟩, ⟨"b", .native, .auto⟩, ⟨"c", .native, .auto⟩,
          ⟨"d", .native, .auto⟩, ⟨"e", .native, .auto⟩] ⟨"f", .native, .auto⟩ =
      ([⟨"b", .native, .auto⟩, ⟨"c", .native, .auto⟩, ⟨"d", .native, .auto⟩,
          ⟨"e", .native, .auto⟩, ⟨"f", .native, .auto⟩], true) ∧
    push_pending_transcript [⟨"a", .native, .auto⟩] ⟨"b", .native, .auto⟩ =
      ([⟨"a", .native, .auto⟩, ⟨"b", .native, .auto⟩], false) := by
  constructor
  · exact c5_queue_bound.2.1 _ _ (by decide)
  · exact c5_queue_bound.2.2 _ _ (by decide)

/-- C3 counterexample: with output seen, a prompt seen at time 40, last output at 80,
last trigger at 50, `should_auto_trigger` returns true at `now = 100` with a 10 ms idle
timeout, although the claim's prompt-seen case (`last_prompt_seen_at > last_trigger_at`
or `last_trigger_at` is None) is false here. -/
theorem c3_counterexample :
    should_auto_trigger ⟨some 40, 80, true⟩ 100 10 (some 50) = true ∧
    ¬((50 : Nat) < 40 ∨ (some 50 : Option Nat) = none) := by
  constructor
  · decide
  · decide

/-- C3 amended: `should_auto_trigger` follows this rule: with no output ever seen it
returns true exactly when `last_trigger_at` is None and the idle timeout has elapsed;
with output seen, it returns true exactly when either a prompt has been seen with
`last_prompt_seen_at > last_trigger_at` (or `last_trigger_at` None), or the idle
timeout has elapsed and `last_output_at > last_trigger_at` (or `last_trigger_at` None)
— the idle/new-output case applies even when a prompt has been seen. -/
theorem c3_auto_trigger_amended (tr : PromptTracker) (now idle_timeout : Nat)
    (last_trigger_at : Option Nat) :
    should_auto_trigger tr now idle_timeout last_trigger_at = true ↔
      ((tr.has_seen_output = false ∧ last_trigger_at = none ∧
          idle_timeout ≤ now - tr.last_output_at) ∨
        (tr.has_seen_output = true ∧
          ((∃ p, tr.last_prompt_seen_at = some p ∧
              (last_trigger_at = none ∨ ∃ l, last_trigger_at = some l ∧ l < p)) ∨
            (idle_timeout ≤ now - tr.last_output_at ∧
              (last_trigger_at = none ∨
                ∃ l, last_trigger_at = some l ∧ l < tr.last_output_at))))) := by
  unfold should_auto_trigger PromptTracker.idle_ready
  rcases hs : tr.has_seen_output with _ | _ <;>
    rcases hp : tr.last_prompt_seen_at with _ | p <;>
    rcases ht : last_trigger_at with _ | l <;>
    simp [hs, hp, ht]

/-- `InputEvent` (codex_overlay.rs:69-79). -/
inductive InputEvent where
  | bytes (payload : List Nat)
  | voiceTrigger
  | toggleAutoVoice
  | toggleSendMode
  | increaseSensitivity
  | decreaseSensitivity
  | enterKey
  | exitKey
deriving DecidableEq, Repr

/-- `InputParser` state (codex_overlay.rs:695-699). -/
structure InputParser where
  pending : List Nat
  skip_lf : Bool
  esc_buffer : Option (List Nat)
deriving DecidableEq, Repr

/-- `InputParser::new`. -/
def InputParser.new : InputParser :=
  ⟨[], false, none⟩

/-- `MAX_CSI_LEN` (codex_overlay.rs:765). -/
def MAX_CSI_LEN : Nat := 32

/-- `is_csi_final` (codex_overlay.rs:817-819). -/
def is_csi_final (byte : Nat) : Bool :=
  decide (0x40 ≤ byte) && decide (byte ≤ 0x7e)

/-- The per-byte predicate of `is_csi_u_numeric`: ASCII digit or semicolon. -/
def isDigitOrSemi (b : Nat) : Bool :=
  (decide (0x30 ≤ b) && decide (b ≤ 0x39)) || b == 0x3b

/-- `is_csi_u_numeric` (codex_overlay.rs:821-831). -/
def is_csi_u_numeric (buffer : List Nat) : Bool :=
  if buffer.length < 3 then
    false
  else if !(buffer.getD 0 0 == 0x1b) || !(buffer.getD 1 0 == 0x5b) ||
      !(buffer.getLast? == some 0x75) then
    false
  else
    ((buffer.drop 2).dropLast).all isDigitOrSemi

/-- `InputParser::consume_escape` (codex_overlay.rs:764-805).  Returns the updated
parser and whether the byte was consumed by escape handling. -/
def consume_escape (p : InputParser) (byte : Nat) : InputParser × Bool :=
  match p.esc_buffer with
  | some buffer0 =>
    let buffer := buffer0 ++ [byte]
    if buffer.length == 2 && !(buffer.getD 1 0 == 0x5b) then
      ({ p with pending := p.pending ++ buffer, esc_buffer := none }, true)
    else if decide (2 ≤ buffer.length) && buffer.getD 1 0 == 0x5b then
      if decide (3 ≤ buffer.length) && is_csi_final byte then
        if is_csi_u_numeric buffer then
          ({ p with esc_buffer := none }, true)
        else
          ({ p with pending := p.pending ++ buffer, esc_buffer := none }, true)
      else if decide (MAX_CSI_LEN < buffer.length) then
        ({ p with pending := p.pending ++ buffer, esc_buffer := none }, true)
      else
        ({ p with esc_buffer := some buffer }, true)
    else if decide (MAX_CSI_LEN < buffer.length) then
      ({ p with pending := p.pending ++ buffer, esc_buffer := none }, true)
    else
      ({ p with esc_buffer := some buffer }, true)
  | none =>
    if byte == 0x1b then
      ({ p with esc_buffer := some [0x1b] }, true)
    else
      (p, false)

/-- `InputParser::flush_pending` (codex_overlay.rs:807-815). -/
def flush_pending (p : InputParser) (out : List InputEvent) :
    InputParser × List InputEvent :=
  let pending := p.pending ++ p.esc_buffer.getD []
  if pending.isEmpty then
    ({ p with pending := pending, esc_buffer := none }, out)
  else
    ({ p with pending := [], esc_buffer := none }, out ++ [.bytes pending])

/-- The body of the per-byte loop in `InputParser::consume_bytes` (codex_overlay.rs:710-762). -/
def consume_byte (st : InputParser × List InputEvent) (byte : Nat) :
    InputParser × List InputEvent :=
  let r := consume_escape st.1 byte
  if r.2 then
    (r.1, st.2)
  else
    let p := r.1
    let skip := p.skip_lf && byte == 0x0a
    let p := { p with skip_lf := false }
    let out := st.2
    if skip then
      (p, out)
    else if byte == 0x11 then
      let f := flush_pending p out
      (f.1, f.2 ++ [.exitKey])
    else if byte == 0x12 then
      let f := flush_pending p out
      (f.1, f.2 ++ [.voiceTrigger])
    else if byte == 0x16 then
      let f := flush_pending p out
      (f.1, f.2 ++ [.toggleAutoVoice])
    else if byte == 0x14 then
      let f := flush_pending p out
      (f.1, f.2 ++ [.toggleSendMode])
    else if byte == 0x1d then
      let f := flush_pending p out
      (f.1, f.2 ++ [.increaseSensitivity])
    else if byte == 0x1c then
      let f := flush_pending p out
      (f.1, f.2 ++ [.decreaseSensitivity])
    else if byte == 0x1f then
      let f := flush_pending p out
      (f.1, f.2 ++ [.decreaseSensitivity])
    else if byte == 0x0d || byte == 0x0a then
      let f := flush_pending p out
      ({ f.1 with skip_lf := byte == 0x0d }, f.2 ++ [.enterKey])
    else
      ({ p with pending := p.pending ++ [byte] }, out)

/-- `InputParser::consume_bytes`. -/
def consume_bytes (p : InputParser) (bytes : List Nat) (out : List InputEvent) :
    InputParser × List InputEvent :=
  bytes.foldl consume_byte (p, out)

/-- One `read` batch as processed by `spawn_input_thread` (codex_overlay.rs:833-857):
consume the bytes, then flush. -/
def parse_batch (p : InputParser) (bytes : List Nat) :
    InputParser × List InputEvent :=
  let r := consume_bytes p bytes []
  flush_pending r.1 r.2

lemma consume_byte_escaped (p : InputParser) (out : List InputEvent) (b : Nat)
    (q : InputParser) (h : consume_escape p b = (q, true)) :
    consume_byte (p, out) b = (q, out) := by
  simp [consume_byte, h]

lemma consume_escape_mid (p : InputParser) (acc : List Nat) (b : Nat)
    (hbuf : p.esc_buffer = some (0x1b :: 0x5b :: acc))
    (hb : is_csi_final b = false)
    (hlen : acc.length ≤ 29) :
    consume_escape p b =
      ({ p with esc_buffer := some (0x1b :: 0x5b :: (acc ++ [b])) }, true) := by
  have h32 : ¬ (MAX_CSI_LEN < acc.length + 3) := by
    simp only [MAX_CSI_LEN]
    omega
  simp [consume_escape, hbuf, hb, MAX_CSI_LEN] at h32 ⊢
  omega

lemma consume_escape_final (p : InputParser) (acc : List Nat) (b : Nat)
    (hbuf : p.esc_buffer = some (0x1b :: 0x5b :: acc))
    (hb : is_csi_final b = true) :
    consume_escape p b =
      (if is_csi_u_numeric (0x1b :: 0x5b :: (acc ++ [b])) then
        { p with esc_buffer := none }
      else
        { p with pending := p.pending ++ (0x1b :: 0x5b :: (acc ++ [b])),
                 esc_buffer := none },
       true) := by
  by_cases hu : is_csi_u_numeric (0x1b :: 0x5b :: (acc ++ [b])) = true <;>
    simp [consume_escape, hbuf, hb, hu]

lemma consume_csi_run (body : List Nat) :
    ∀ (p : InputParser) (acc : List Nat) (out : List InputEvent),
      p.esc_buffer = some (0x1b :: 0x5b :: acc) →
      body.all (fun b => !is_csi_final b) = true →
      acc.length + body.length ≤ 30 →
      consume_bytes p body out =
        ({ p with esc_buffer := some (0x1b :: 0x5b :: (acc ++ body)) }, out) := by
  induction body with
  | nil =>
    intro p acc out hbuf _ _
    simp [consume_bytes, ← hbuf]
  | cons b rest ih =>
    intro p acc out hbuf hall hlen
    simp only [List.all_cons, Bool.and_eq_true, Bool.not_eq_true'] at hall
    simp only [consume_bytes, List.foldl_cons]
    rw [consume_byte_escaped _ _ _ _
      (consume_escape_mid p acc b hbuf hall.1 (by simp at hlen; omega))]
    have hr := ih { p with esc_buffer := some (0x1b :: 0x5b :: (acc ++ [b])) }
      (acc ++ [b]) out (by simp) hall.2 (by simp at hlen ⊢; omega)
    simpa [consume_bytes, List.append_assoc] using hr

lemma not_final_of_digitOrSemi (body : List Nat) (h : body.all isDigitOrSemi = true) :
    body.all (fun b => !is_csi_final b) = true := by
  rw [List.all_eq_true] at *
  intro b hb
  have hd := h b hb
  simp only [isDigitOrSemi, Bool.or_eq_true, Bool.and_eq_true, decide_eq_true_eq,
    beq_iff_eq] at hd
  simp only [is_csi_final, Bool.not_eq_true', Bool.and_eq_false_iff, decide_eq_false_iff_not]
  omega

lemma csi_u_numeric_of_digits (body : List Nat) (h : body.all isDigitOrSemi = true) :
    is_csi_u_numeric (0x1b :: 0x5b :: (body ++ [0x75])) = true := by
  have hl : (0x1b :: 0x5b :: (body ++ [0x75])).getLast? = some 0x75 := by
    rw [show (0x1b :: 0x5b :: (body ++ [0x75])) = (0x1b :: 0x5b :: body) ++ [0x75] by simp]
    exact List.getLast?_concat _
  simp [is_csi_u_numeric, hl, List.dropLast_concat, h]

set_option maxRecDepth 8000 in
/-- C7 counterexample: (i) feeding the single batch `a ESC [48;0;0u b` produces the
single event `Bytes("ab")` — the CSI-`u` sequence is dropped but `a` stays buffered in
`pending` until the end-of-batch flush, so the events are not `[Bytes "a", Bytes "b"]`
as claimed; (ii) the complete numeric kitty-keyboard CSI-`u` sequence `ESC [ 0×31 u`
(34 bytes) is NOT dropped: the overlong-escape guard (`MAX_CSI_LEN = 32`) flushes the
buffer as literal bytes before the final `u` arrives, so the whole sequence is emitted
instead of producing no events. -/
theorem c7_counterexample :
    (parse_batch .new
        [0x61, 0x1b, 0x5b, 0x34, 0x38, 0x3b, 0x30, 0x3b, 0x30, 0x75, 0x62]).2 =
      [.bytes [0x61, 0x62]] ∧
    (parse_batch .new ([0x1b, 0x5b] ++ List.replicate 31 0x30 ++ [0x75])).2 =
      [.bytes ([0x1b, 0x5b] ++ List.replicate 31 0x30 ++ [0x75])] ∧
    (List.replicate 31 0x30).all isDigitOrSemi = true := by
  refine ⟨by decide, ?_, by decide⟩
  decide

/-- C7 amended: for numeric kitty-keyboard CSI-`u` sequences whose parameter body has
at most 30 bytes (so the buffer never exceeds `MAX_CSI_LEN = 32` before the final
byte), the decoder drops the complete sequence without emitting any event; every other
complete CSI sequence within the same length bound is forwarded verbatim as a single
`Bytes` event.  The batch `a ESC [48;0;0u b` produces the single event `Bytes("ab")`
(the CSI is dropped; the surrounding bytes share the end-of-batch flush) and
`ESC [ A` produces `Bytes "\x1b[A"`. -/
theorem c7_csi_amended (body : List Nat)
    (hnf : body.all (fun b => !is_csi_final b) = true)
    (hlen : body.length ≤ 30) :
    (body.all isDigitOrSemi = true →
      (parse_batch .new ([0x1b, 0x5b] ++ body ++ [0x75])).2 = []) ∧
    (∀ fb : Nat, is_csi_final fb = true →
      is_csi_u_numeric (0x1b :: 0x5b :: (body ++ [fb])) = false →
      (parse_batch .new ([0x1b, 0x5b] ++ body ++ [fb])).2 =
        [.bytes (0x1b :: 0x5b :: (body ++ [fb]))]) ∧
    (parse_batch .new
        [0x61, 0x1b, 0x5b, 0x34, 0x38, 0x3b, 0x30, 0x3b, 0x30, 0x75, 0x62]).2 =
      [.bytes [0x61, 0x62]] ∧
    (parse_batch .new [0x1b, 0x5b, 0x41]).2 = [.bytes [0x1b, 0x5b, 0x41]] := by
  have hrun : ∀ tail : Nat,
      consume_bytes InputParser.new ([0x1b, 0x5b] ++ body ++ [tail]) [] =
        consume_byte (⟨[], false, some (0x1b :: 0x5b :: body)⟩, []) tail := by
    intro tail
    have h2 : List.foldl consume_byte (InputParser.new, []) [0x1b, 0x5b] =
        ((⟨[], false, some (0x1b :: 0x5b :: [])⟩ : InputParser), []) := by
      decide
    have hb := consume_csi_run body ⟨[], false, some (0x1b :: 0x5b :: [])⟩ [] []
      rfl hnf (by simpa using hlen)
    simp only [consume_bytes] at hb ⊢
    rw [List.foldl_append, List.foldl_append, h2, hb]
    rfl
  refine ⟨?_, ?_, by decide, by decide⟩
  · intro hdig
    have hu := csi_u_numeric_of_digits body hdig
    have hesc := consume_escape_final ⟨[], false, some (0x1b :: 0x5b :: body)⟩
      body 0x75 rfl (by decide)
    rw [hu] at hesc
    simp only [if_true] at hesc
    have hcb := consume_byte_escaped _ ([] : List InputEvent) _ _ hesc
    unfold parse_batch
    rw [hrun 0x75, hcb]
    rfl
  · intro fb hfb hu
    have hesc := consume_escape_final ⟨[], false, some (0x1b :: 0x5b :: body)⟩
      body fb rfl hfb
    rw [hu] at hesc
    simp only [if_false, Bool.false_eq_true, if_neg, not_false_iff] at hesc
    have hcb := consume_byte_escaped _ ([] : List InputEvent) _ _ hesc
    unfold parse_batch
    rw [hrun fb, hcb]
    simp [flush_pending]

/-- Witness for C7 amended: the 6-byte body `48;0;0` is all digits/semicolons and short
enough, so `ESC [48;0;0 u` is dropped; with the empty body and final byte `A`, the
arrow sequence `ESC [ A` is forwarded verbatim. -/
theorem c7_csi_amended_witness :
    (parse_batch .new
        ([0x1b, 0x5b] ++ [0x34, 0x38, 0x3b, 0x30, 0x3b, 0x30] ++ [0x75])).2 = [] ∧
    (parse_batch .new ([0x1b, 0x5b] ++ ([] : List Nat) ++ [0x41])).2 =
      [.bytes (0x1b :: 0x5b :: (([] : List Nat) ++ [0x41]))] := by
  constructor
  · exact (c7_csi_amended [0x34, 0x38, 0x3b, 0x30, 0x3b, 0x30] (by decide)
      (by decide)).1 (by decide)
  · exact ((c7_csi_amended [] (by decide) (by decide)).2.1 0x41 (by decide) (by decide))

/-- C8: whenever the decoder flushes, any incompletely buffered escape bytes are
appended to the pending bytes and emitted literally inside the `Bytes` event, the
escape buffer is cleared and the pending buffer emptied, so escape state never
survives a flush; consequently the CSI-`u` sequence `ESC [48;0;0u` split across the
two read batches `a ESC [4` and `8;0;0ub` is emitted as literal bytes (together with
the surrounding payload) rather than reassembled or filtered. -/
theorem c8_flush_literal :
    (∀ (p : InputParser) (out : List InputEvent),
      (flush_pending p out).1.esc_buffer = none ∧
      (flush_pending p out).1.pending = [] ∧
      (flush_pending p out).1.skip_lf = p.skip_lf ∧
      (flush_pending p out).2 =
        (if (p.pending ++ p.esc_buffer.getD []).isEmpty then out
         else out ++ [.bytes (p.pending ++ p.esc_buffer.getD [])])) ∧
    (parse_batch .new [0x61, 0x1b, 0x5b, 0x34]).2 =
      [.bytes [0x61, 0x1b, 0x5b, 0x34]] ∧
    (parse_batch (parse_batch .new [0x61, 0x1b, 0x5b, 0x34]).1
        [0x38, 0x3b, 0x30, 0x3b, 0x30, 0x75, 0x62]).2 =
      [.bytes [0x38, 0x3b, 0x30, 0x3b, 0x30, 0x75, 0x62]] := by
  refine ⟨?_, by decide, by decide⟩
  intro p out
  unfold flush_pending
  rcases hp : p.pending ++ p.esc_buffer.getD [] with _ | ⟨b, bs⟩
  · have : p.pending = [] := by
      rcases List.append_eq_nil.mp hp with ⟨h1, _⟩
      exact h1
    simp [hp, this]
  · simp [hp]

/-- The coordinator's status bookkeeping: `current_status`, `status_clear_deadline`,
plus the list of `Status` texts sent to the writer channel so far (the observable
effect of `writer_tx.send(WriterMessage::Status)`). -/
structure StatusState where
  current_status : Option String
  clear_deadline : Option Nat
  sent : List String
deriving DecidableEq, Repr

/-- `set_status` (codex_overlay.rs:1048-1063). -/
def set_status (st : StatusState) (text : String) (clear_after : Option Nat)
    (now : Nat) : StatusState :=
  if st.current_status = some text then
    st
  else
    { current_status := some text,
      clear_deadline := clear_after.map (fun d => now + d),
      sent := st.sent ++ [text] }

/-- Modelled from the spec: `PtyOverlaySession::send_text` lives in the `rust_tui`
library crate, which is not under `src/`; per §6 it writes the text's bytes to the
PTY. -/
def send_text (pty : List Nat) (text : String) : List Nat :=
  pty ++ strBytes text

/-- Modelled from the spec: `PtyOverlaySession::send_text_with_newline` lives in the
`rust_tui` library crate, which is not under `src/`; per §4.4 (`Auto` → "send text
followed by submit key (0x0d)") it writes the text's bytes followed by `0x0d`. -/
def send_text_with_newline (pty : List Nat) (text : String) : List Nat :=
  pty ++ strBytes text ++ [0x0d]

/-- `send_transcript` (codex_overlay.rs:1203-1222): trim, no-op when empty; `Auto`
sends text plus newline and reports `true`, `Insert` sends the text only. -/
def send_transcript (pty : List Nat) (text : String) (mode : VoiceSendMode) :
    List Nat × Bool :=
  let trimmed := rustTrim text
  if trimmed.isEmpty then
    (pty, false)
  else
    match mode with
    | .auto => (send_text_with_newline pty trimmed, true)
    | .insert => (send_text pty trimmed, false)

/-- `deliver_transcript` (codex_overlay.rs:1224-1254): set the "Transcript ready"
status (2 s clear) and send; returns whether a newline was sent.  The model's PTY
writes never fail, so the error path is not taken. -/
def deliver_transcript (text label : String) (mode : VoiceSendMode) (pty : List Nat)
    (status : StatusState) (queued_remaining : Nat) (drop_note : Option String)
    (now : Nat) : List Nat × StatusState × Bool :=
  let label2 := match drop_note with
    | some note => label ++ ", " ++ note
    | none => label
  let status_text :=
    if 0 < queued_remaining then
      "Transcript ready (" ++ label2 ++ ") • queued " ++ toString queued_remaining
    else
      "Transcript ready (" ++ label2 ++ ")"
  let status := set_status status status_text (some 2000) now
  let r := send_transcript pty text mode
  (r.1, status, r.2)

/-- The mutable coordinator state that `try_flush_pending` reads and writes. -/
structure FlushState where
  pending : List PendingTranscript
  last_enter_at : Option Nat
  pty : List Nat
  status : StatusState
deriving DecidableEq, Repr

/-- `try_flush_pending` (codex_overlay.rs:588-610). -/
def try_flush_pending (fs : FlushState) (tr : PromptTracker)
    (now transcript_idle_timeout : Nat) : FlushState :=
  if fs.pending.isEmpty ||
      !(transcript_ready tr fs.last_enter_at now transcript_idle_timeout) then
    fs
  else
    match merge_pending_transcripts fs.pending with
    | (none, rest) => { fs with pending := rest }
    | (some batch, rest) =>
      let d := deliver_transcript batch.text batch.label batch.mode fs.pty fs.status
        rest.length none now
      { pending := rest,
        last_enter_at := if d.2.2 then some now else fs.last_enter_at,
        pty := d.1,
        status := d.2.1 }

/-- The `VoiceJobMessage::Transcript` arm of the coordinator tick
(codex_overlay.rs:386-489): compute readiness, note activity under auto-voice, then
either deliver immediately (ready with empty queue) or enqueue with the overflow
status, flushing when ready.  The auto-voice re-arm at the end only starts a new
capture (an external effect outside this state). -/
def on_transcript (auto_voice_enabled : Bool) (voice_send_mode : VoiceSendMode)
    (text : String) (source : VoiceCaptureSource) (frames_dropped : Option Nat)
    (tr : PromptTracker) (fs : FlushState) (now transcript_idle_timeout : Nat) :
    PromptTracker × FlushState :=
  let ready := transcript_ready tr fs.last_enter_at now transcript_idle_timeout
  let tr1 := if auto_voice_enabled then tr.note_activity now else tr
  let drop_note := match frames_dropped with
    | some n => if 0 < n then some ("dropped " ++ toString n ++ " frames") else none
    | none => none
  let drop_suffix := match drop_note with
    | some note => ", " ++ note
    | none => ""
  if ready && fs.pending.isEmpty then
    let d := deliver_transcript text source.label voice_send_mode fs.pty fs.status 0
      drop_note now
    (tr1,
      { fs with
          pty := d.1,
          status := d.2.1,
          last_enter_at := if d.2.2 then some now else fs.last_enter_at })
  else
    let pr := push_pending_transcript fs.pending ⟨text, source, voice_send_mode⟩
    let fs1 :=
      { fs with
          pending := pr.1,
          status :=
            if pr.2 then
              set_status fs.status "Transcript queue full (oldest dropped)" (some 2000)
                now
            else fs.status }
    if ready then
      (tr1, try_flush_pending fs1 tr1 now transcript_idle_timeout)
    else if !pr.2 then
      (tr1,
        { fs1 with
            status :=
              set_status fs1.status
                ("Transcript queued (" ++ toString fs1.pending.length ++ drop_suffix
                  ++ ")")
                none now })
    else
      (tr1, fs1)

/-- C10: calling `set_status` with text equal to the currently recorded status is a
complete no-op (no `Status` message sent, `current_status` unchanged, the existing
clear deadline kept whatever clear duration the call passes); a call with different
text sends exactly one message, records the text and replaces the deadline. -/
theorem c10_set_status_noop (st : StatusState) (text : String)
    (clear_after : Option Nat) (now : Nat) :
    (st.current_status = some text → set_status st text clear_after now = st) ∧
    (st.current_status ≠ some text →
      set_status st text clear_after now =
        { current_status := some text,
          clear_deadline := clear_after.map (fun d => now + d),
          sent := st.sent ++ [text] }) := by
  constructor <;> intro h <;> simp [set_status, h]

/-- Witness for C10: repeating the text "Listening" is a no-op that keeps the old
deadline 99 despite the new 5 ms duration; the different text "Ready" is sent and
replaces the deadline. -/
theorem c10_set_status_noop_witness :
    set_status ⟨some "Listening", some 99, ["Listening"]⟩ "Listening" (some 5) 50 =
      ⟨some "Listening", some 99, ["Listening"]⟩ ∧
    set_status ⟨some "Listening", some 99, ["Listening"]⟩ "Ready" none 50 =
      ⟨some "Ready", none, ["Listening", "Ready"]⟩ := by
  constructor
  · exact (c10_set_status_noop ⟨some "Listening", some 99, ["Listening"]⟩
      "Listening" (some 5) 50).1 rfl
  · exact (c10_set_status_noop ⟨some "Listening", some 99, ["Listening"]⟩
      "Ready" none 50).2 (by decide)

/-- C2: when a `Transcript` arrives while `transcript_ready` holds and the pending
queue is empty, in `Auto` send mode the PTY receives exactly the trimmed transcript
text followed by the submit key `0x0d` and `last_enter_at` becomes the current time;
if the trimmed text is empty, nothing reaches the PTY and `last_enter_at` is
unchanged. -/
theorem c2_auto_delivery (auto_voice_enabled : Bool) (text : String)
    (source : VoiceCaptureSource) (tr : PromptTracker) (fs : FlushState)
    (now timeout : Nat)
    (hready : transcript_ready tr fs.last_enter_at now timeout = true)
    (hempty : fs.pending = []) :
    ((rustTrim text).isEmpty = false →
      (on_transcript auto_voice_enabled .auto text source none tr fs now
            timeout).2.pty =
          fs.pty ++ strBytes (rustTrim text) ++ [0x0d] ∧
        (on_transcript auto_voice_enabled .auto text source none tr fs now
            timeout).2.last_enter_at = some now) ∧
    ((rustTrim text).isEmpty = true →
      (on_transcript auto_voice_enabled .auto text source none tr fs now
            timeout).2.pty = fs.pty ∧
        (on_transcript auto_voice_enabled .auto text source none tr fs now
            timeout).2.last_enter_at = fs.last_enter_at) := by
  constructor <;> intro ht <;>
    simp [on_transcript, hready, hempty, deliver_transcript, send_transcript, ht,
      send_text_with_newline]

/-- Witness for C2: with a prompt seen at time 5 and no Enter ever sent, the transcript
`"  hello  "` delivered at time 10 in Auto mode puts exactly `"hello" + 0x0d` on the
PTY and sets `last_enter_at = 10`. -/
theorem c2_auto_delivery_witness :
    transcript_ready ⟨some 5, 0, true⟩ none 10 250 = true ∧
    (on_transcript false .auto "  hello  " .native none ⟨some 5, 0, true⟩
        ⟨[], none, [], ⟨none, none, []⟩⟩ 10 250).2.pty =
      strBytes "hello" ++ [0x0d] ∧
    (on_transcript false .auto "  hello  " .native none ⟨some 5, 0, true⟩
        ⟨[], none, [], ⟨none, none, []⟩⟩ 10 250).2.last_enter_at = some 10 := by
  have h := c2_auto_delivery false "  hello  " .native ⟨some 5, 0, true⟩
    ⟨[], none, [], ⟨none, none, []⟩⟩ 10 250 (by decide) rfl
  refine ⟨by decide, ?_, (h.1 (by decide)).2⟩
  have h2 := (h.1 (by decide)).1
  rw [h2]
  decide

/-- C9: when every contiguous front entry sharing the front entry's mode is
whitespace-only after trimming, a flush attempt while `transcript_ready` holds removes
exactly those entries from the queue and delivers nothing: no text is written to the
PTY, no status is set, and `last_enter_at` is unchanged. -/
theorem c9_whitespace_flush (fs : FlushState) (tr : PromptTracker)
    (now timeout : Nat) (first : PendingTranscript) (rest : List PendingTranscript)
    (hp : fs.pending = first :: rest)
    (hready : transcript_ready tr fs.last_enter_at now timeout = true)
    (hws : ∀ e ∈ (first :: rest).takeWhile (fun x => x.mode == first.mode),
      (rustTrim e.text).isEmpty = true) :
    try_flush_pending fs tr now timeout =
      { fs with pending := (first :: rest).dropWhile (fun x => x.mode == first.mode) } := by
  have hnil : (List.takeWhile (fun e => e.mode == first.mode) (first :: rest)).filterMap
      (fun e =>
        if (rustTrim e.text).isEmpty then none
        else some (rustTrim e.text, e.source)) = [] := by
    rw [List.filterMap_eq_nil_iff]
    intro e he
    simp [hws e he]
  unfold try_flush_pending
  rw [hp, merge_cons_eq, hnil]
  simp [hready]

/-- Witness for C9: a singleton queue holding the whitespace transcript `" "` is
drained with no PTY write, no status and unchanged `last_enter_at`. -/
theorem c9_whitespace_flush_witness :
    try_flush_pending ⟨[⟨" ", .native, .auto⟩], some 3, [], ⟨none, none, []⟩⟩
        ⟨some 5, 0, true⟩ 10 250 =
      ⟨[], some 3, [], ⟨none, none, []⟩⟩ := by
  have h := c9_whitespace_flush ⟨[⟨" ", .native, .auto⟩], some 3, [], ⟨none, none, []⟩⟩
    ⟨some 5, 0, true⟩ 10 250 ⟨" ", .native, .auto⟩ [] rfl (by decide) (by decide)
  simpa using h

/-- `VoiceJobMessage` (library crate; §4.3 of the spec lists the three variants).
`metrics` is reduced to its `frames_dropped` field, the only part the coordinator
reads. -/
inductive VoiceJobMessage where
  | transcript (text : String) (source : VoiceCaptureSource) (frames_dropped : Option Nat)
  | empty (source : VoiceCaptureSource) (frames_dropped : Option Nat)
  | error (message : String)
deriving DecidableEq, Repr

/-- The `VoiceManager` fields the cancel/poll claims read (codex_overlay.rs:1341-1348).
The job's receiver, worker handle and stop flag are external resources: the job is
modelled as present/absent and the result of `receiver.try_recv()` is an input to
`poll_message`. -/
structure VoiceManager where
  job : Option Unit
  cancel_pending : Bool
  active_source : Option VoiceCaptureSource
deriving DecidableEq, Repr

/-- Outcome of `job.receiver.try_recv()` in `poll_message`. -/
inductive RecvOutcome where
  | received (message : VoiceJobMessage)
  | empty
  | disconnected
deriving DecidableEq, Repr

/-- `VoiceManager::is_idle` (codex_overlay.rs:1371-1373). -/
def is_idle (vm : VoiceManager) : Bool :=
  vm.job.isNone

/-- `VoiceManager::cancel_capture` (codex_overlay.rs:1380-1389): `request_stop` on the
worker is an external effect; the state change is `cancel_pending := true`. -/
def cancel_capture (vm : VoiceManager) : VoiceManager × Bool :=
  match vm.job with
  | some _ => ({ vm with cancel_pending := true }, true)
  | none => (vm, false)

/-- `VoiceManager::poll_message` (codex_overlay.rs:1472-1508), with the `try_recv`
result supplied as `recv` (joining the worker handle is an external effect). -/
def poll_message (vm : VoiceManager) (recv : RecvOutcome) :
    VoiceManager × Option VoiceJobMessage :=
  match vm.job with
  | none => (vm, none)
  | some _ =>
    match recv with
    | .received message =>
      let vm1 := { vm with job := none, active_source := none }
      if vm1.cancel_pending then
        ({ vm1 with cancel_pending := false }, none)
      else
        (vm1, some message)
    | .empty => (vm, none)
    | .disconnected =>
      let was_cancelled := vm.cancel_pending
      let vm1 := { vm with job := none, active_source := none, cancel_pending := false }
      if was_cancelled then
        (vm1, none)
      else
        (vm1, some (.error "voice capture worker disconnected unexpectedly"))

/-- C6: if `cancel_capture` is called while a job is active it returns true and sets
`cancel_pending`; polls that receive nothing leave the state unchanged, and the next
`poll_message` that receives a worker message returns `none` instead of the message
and leaves the manager idle: job dropped, `active_source` cleared, `cancel_pending`
reset to false. -/
theorem c6_cancel_silence (vm : VoiceManager) (m : VoiceJobMessage)
    (hjob : vm.job.isSome = true) :
    (cancel_capture vm).2 = true ∧
    (cancel_capture vm).1.cancel_pending = true ∧
    poll_message (cancel_capture vm).1 .empty = ((cancel_capture vm).1, none) ∧
    poll_message (cancel_capture vm).1 (.received m) =
      ({ job := none, cancel_pending := false, active_source := none }, none) ∧
    is_idle (poll_message (cancel_capture vm).1 (.received m)).1 = true := by
  rcases hv : vm.job with _ | j
  · rw [hv] at hjob
    simp at hjob
  · simp [cancel_capture, poll_message, hv, is_idle]

/-- Witness for C6: cancelling a concrete active native capture suppresses the next
received `Empty` message and leaves the manager idle. -/
theorem c6_cancel_silence_witness :
    (cancel_capture ⟨some (), false, some .native⟩).2 = true ∧
    poll_message (cancel_capture ⟨some (), false, some .native⟩).1
        (.received (.empty .native none)) =
      (⟨none, false, none⟩, none) := by
  have h := c6_cancel_silence ⟨some (), false, some .native⟩ (.empty .native none)
    (by decide)
  exact ⟨h.1, h.2.2.2.1⟩

/-- Witness for C4 amended: merging a queue holding two Auto-mode entries (sources
Native then Python) in front of an Insert-mode entry yields the batch
`"hi yo"` labelled "Mixed pipelines" with mode Auto, leaving the Insert entry
queued. -/
theorem c4_merge_amended_witness :
    (merge_pending_transcripts
        [⟨" hi ", .native, .auto⟩, ⟨"yo", .python, .auto⟩, ⟨"x", .native, .insert⟩]).2 =
      [⟨"x", .native, .insert⟩] ∧
    (merge_pending_transcripts
        [⟨" hi ", .native, .auto⟩, ⟨"yo", .python, .auto⟩, ⟨"x", .native, .insert⟩]).1 =
      some ⟨"hi yo", "Mixed pipelines", .auto⟩ := by
  have h := c4_merge_amended
    [⟨" hi ", .native, .auto⟩, ⟨"yo", .python, .auto⟩, ⟨"x", .native, .insert⟩]
    ⟨" hi ", .native, .auto⟩ [⟨"yo", .python, .auto⟩, ⟨"x", .native, .insert⟩] rfl
  constructor
  · rw [h.1]
    decide
  · have h4 := h.2.2.2 ("hi", .native) [("yo", .python)] (by decide)
    rw [h4]
    decide

end CodexOverlay
